import Mathlib

/-!
# Verification of the bugview/jirapub service

A shallow embedding of the canonical variant of the `jirapub` service (the
variant that escapes markup through an entity-encoding library, checks the
configured label and renders through external templates), together with
theorems settling the specification's claims about it.

The embedding covers:
* the markup renderer `format_markup` (JS `format_markup`),
* the issue page composer `format_issue` (JS `format_issue`),
* the request handlers `handle_issue` and `handle_issue_index`.

JS exceptions (from `Date#toISOString` on invalid dates) are modelled by
`Option`: a `none` result of a formatter or of a handler's response stands
for a thrown exception.  Strings are Lean `String`s; the JS `String#length`
(UTF-16 code units) is modelled by `js_strlen`.
-/

namespace Bugview

/-! ## Generic string plumbing -/

/-- Concatenation of a list of strings, used to state renderer output
decompositions. -/
def str_concat : List String → String
  | [] => ""
  | s :: rest => s ++ str_concat rest

theorem str_concat_append (l1 l2 : List String) :
    str_concat (l1 ++ l2) = str_concat l1 ++ str_concat l2 := by
  induction l1 with
  | nil => simp [str_concat]
  | cons s rest ih => simp [str_concat, ih, String.append_assoc]

/-- Number of occurrences of the pattern `pat` inside the character list
`l` (occurrences may overlap). -/
def count_occ (pat l : List Char) : Nat :=
  l.tails.countP (fun t => List.isPrefixOf pat t)

/-- `pair_free a b l` holds when no element equal to `a` is immediately
followed by an element equal to `b` in `l`. -/
def pair_free (a b : Char) : List Char → Bool
  | [] => true
  | [_] => true
  | x :: y :: rest => (!(x == a && y == b)) && pair_free a b (y :: rest)

theorem pair_free_of_not_mem (a b : Char) (l : List Char) (h : a ∉ l) :
    pair_free a b l = true := by
  induction l with
  | nil => rfl
  | cons x rest ih =>
    cases rest with
    | nil => rfl
    | cons y rest' =>
      have hx : x ≠ a := fun hxa => h (by simp [hxa])
      have hrest : a ∉ y :: rest' := fun hm => h (List.mem_cons_of_mem _ hm)
      simp only [pair_free, Bool.and_eq_true, Bool.not_eq_true']
      exact ⟨by simp [hx], ih hrest⟩

theorem pair_free_append (a b : Char) (l1 l2 : List Char)
    (h1 : pair_free a b l1 = true) (h2 : pair_free a b l2 = true)
    (hb : ∀ x y, l1.getLast? = some x → l2.head? = some y →
      ¬(x = a ∧ y = b)) :
    pair_free a b (l1 ++ l2) = true := by
  induction l1 with
  | nil => simpa using h2
  | cons x rest ih =>
    cases rest with
    | nil =>
      cases l2 with
      | nil => rfl
      | cons y l2' =>
        simp only [List.singleton_append, pair_free, Bool.and_eq_true,
          Bool.not_eq_true']
        constructor
        · have := hb x y (by rfl) (by rfl)
          by_contra hc
          simp only [Bool.not_eq_false, Bool.and_eq_true, beq_iff_eq] at hc
          exact this ⟨hc.1, hc.2⟩
        · exact h2
    | cons z rest' =>
      simp only [pair_free, Bool.and_eq_true, Bool.not_eq_true'] at h1
      have hlast : (x :: z :: rest').getLast? = (z :: rest').getLast? := by
        simp [List.getLast?_cons_cons]
      simp only [List.cons_append, pair_free]
      have hrec : pair_free a b ((z :: rest') ++ l2) = true := by
        apply ih h1.2
        intro u v hu hv
        exact hb u v (by rw [hlast]; exact hu) hv
      simp only [List.cons_append] at hrec
      simp [pair_free, hrec, h1.1]

theorem count_occ_zero_of_pair_free (a b : Char) (rest l : List Char)
    (h : pair_free a b l = true) : count_occ (a :: b :: rest) l = 0 := by
  induction l with
  | nil => rfl
  | cons x l' ih =>
    have hl' : pair_free a b l' = true := by
      cases l' with
      | nil => rfl
      | cons y l'' =>
        simp only [pair_free, Bool.and_eq_true] at h
        exact h.2
    have hnp : List.isPrefixOf (a :: b :: rest) (x :: l') = false := by
      cases l' with
      | nil => simp [List.isPrefixOf]
      | cons y l'' =>
        simp only [pair_free, Bool.and_eq_true, Bool.not_eq_true'] at h
        have h1 : ¬(x = a ∧ y = b) := by
          intro hp
          rw [hp.1, hp.2] at h
          simp at h
        simp only [List.isPrefixOf]
        by_cases hax : a = x
        · by_cases hby : b = y
          · exact absurd ⟨hax.symm, hby.symm⟩ h1
          · simp [hby]
        · simp [hax]
    rw [count_occ, List.tails_cons, List.countP_cons]
    have hc : count_occ (a :: b :: rest) l' = 0 := ih hl'
    rw [count_occ] at hc
    simp [hc, hnp]

/-! ## Entity encoding (the `ent` library) -/

/-- Modelled from the spec: the entity-encoding library (`mod_ent.encode`)
used by the canonical variant is not part of the repository sources.  The
spec requires escaping of at minimum `&`, `<`, `>` and the quote
characters; this model escapes exactly those five characters to their HTML
entities and passes every other character through unchanged (the real
library additionally turns non-ASCII code points into numeric character
references, which no claim depends on). -/
def encode_char (c : Char) : String :=
  if c = '&' then "&amp;"
  else if c = '<' then "&lt;"
  else if c = '>' then "&gt;"
  else if c = '"' then "&quot;"
  else if c = '\'' then "&#39;"
  else String.singleton c

def encode_chars : List Char → String
  | [] => ""
  | c :: rest => encode_char c ++ encode_chars rest

/-- Modelled from the spec: `mod_ent.encode` applied to a whole string. -/
def ent_encode (s : String) : String :=
  encode_chars s.data

/-- No character of an entity-encoded string is one of the four
markup-significant characters. -/
theorem encode_char_data_safe (c : Char) :
    ∀ d ∈ (encode_char c).data,
      d ≠ '<' ∧ d ≠ '>' ∧ d ≠ '"' ∧ d ≠ '\'' := by
  intro d hd
  rw [encode_char] at hd
  by_cases h1 : c = '&'
  · simp only [if_pos h1] at hd
    fin_cases hd <;> simp
  · rw [if_neg h1] at hd
    by_cases h2 : c = '<'
    · simp only [if_pos h2] at hd
      fin_cases hd <;> simp
    · rw [if_neg h2] at hd
      by_cases h3 : c = '>'
      · simp only [if_pos h3] at hd
        fin_cases hd <;> simp
      · rw [if_neg h3] at hd
        by_cases h4 : c = '"'
        · simp only [if_pos h4] at hd
          fin_cases hd <;> simp
        · rw [if_neg h4] at hd
          by_cases h5 : c = '\''
          · simp only [if_pos h5] at hd
            fin_cases hd <;> simp
          · rw [if_neg h5] at hd
            have : d = c := by
              simpa [String.singleton] using hd
            subst this
            exact ⟨h2, h3, h4, h5⟩

theorem encode_chars_data_safe (l : List Char) :
    ∀ d ∈ (encode_chars l).data,
      d ≠ '<' ∧ d ≠ '>' ∧ d ≠ '"' ∧ d ≠ '\'' := by
  induction l with
  | nil => intro d hd; simp [encode_chars] at hd
  | cons c rest ih =>
    intro d hd
    rw [encode_chars, String.data_append] at hd
    rcases List.mem_append.mp hd with h | h
    · exact encode_char_data_safe c d h
    · exact ih d h

theorem ent_encode_data_safe (s : String) :
    ∀ d ∈ (ent_encode s).data,
      d ≠ '<' ∧ d ≠ '>' ∧ d ≠ '"' ∧ d ≠ '\'' :=
  encode_chars_data_safe s.data

theorem ent_encode_no_lt (s : String) : '<' ∉ (ent_encode s).data := by
  intro h
  exact (ent_encode_data_safe s '<' h).1 rfl

/-! ## Line splitting: JS `desc.split(/\r?\n/)` -/

/-- Split a character list at every newline character (the fragments do
not contain the separators). -/
def split_nl : List Char → List (List Char)
  | [] => [[]]
  | c :: rest =>
    if c = '\n' then [] :: split_nl rest
    else
      match split_nl rest with
      | [] => [[c]]
      | seg :: segs => (c :: seg) :: segs

/-- Drop a single carriage return at the end of a line fragment (the `\r`
optionally consumed by the `/\r?\n/` separator). -/
def strip_cr (t : List Char) : List Char :=
  if t.getLast? = some '\r' then t.dropLast else t

/-- `split_frags ps` strips a trailing `\r` from every fragment except the
last: every fragment but the last was followed by a `\n` in the original
string, so the separator `/\r?\n/` also consumed an immediately preceding
`\r`. -/
def split_frags : List (List Char) → List (List Char)
  | [] => []
  | [t] => [t]
  | t :: ts => strip_cr t :: split_frags ts

/-- JS `desc.split(/\r?\n/)`: split at every `\n`, each separator consuming
an immediately preceding `\r` when present (a `\r` not followed by `\n`
stays in its line). -/
def splitLines (s : String) : List String :=
  (split_frags (split_nl s.data)).map String.mk

/-! ## The markup renderer: JS `format_markup` -/

/-- A fence-marker line: JS `line.match(/^{noformat/) || line.match(/^{code/)`
(a prefix match, so trailing attributes such as `\x7bcode:java\x7d` also
count). -/
def isFence (line : String) : Bool :=
  List.isPrefixOf "\x7bnoformat".data line.data ||
    List.isPrefixOf "\x7bcode".data line.data

/-- The block-open tag emitted when a fence begins. -/
def PRE_OPEN : String :=
  "<pre style=\"border: 2px solid black;font-family: Menlo, Courier, Lucida Console, Monospace;background-color: #eeeeee;\">\n"

/-- The block-close tag emitted when a fence ends. -/
def PRE_CLOSE : String := "</pre>\n"

/-- The body of the `format_markup` loop: one recursive step per line,
carrying the `fmton` toggle. -/
def format_lines : List String → Bool → String
  | [], _ => ""
  | line :: rest, fmton =>
    if isFence line then
      (if fmton then PRE_CLOSE else PRE_OPEN) ++ format_lines rest (!fmton)
    else
      (ent_encode line ++ (if fmton then "\n" else "<br>\n")) ++
        format_lines rest fmton

/-- JS `format_markup` of the canonical variant: split on `/\r?\n/`, then
per line either toggle a `<pre>` fence or emit the entity-encoded line
followed by `<br>\n` outside a block and a bare newline inside one. -/
def format_markup (desc : String) : String :=
  format_lines (splitLines desc) false

/-- The same loop, with each emitted piece kept as a separate list
element. -/
def render_chunks : List String → Bool → List String
  | [], _ => []
  | line :: rest, fmton =>
    if isFence line then
      (if fmton then PRE_CLOSE else PRE_OPEN) :: render_chunks rest (!fmton)
    else
      (ent_encode line ++ (if fmton then "\n" else "<br>\n")) ::
        render_chunks rest fmton

theorem str_concat_cons (s : String) (l : List String) :
    str_concat (s :: l) = s ++ str_concat l := rfl

theorem format_lines_cons (line : String) (rest : List String) (fmton : Bool) :
    format_lines (line :: rest) fmton =
      if isFence line then
        (if fmton then PRE_CLOSE else PRE_OPEN) ++ format_lines rest (!fmton)
      else
        (ent_encode line ++ (if fmton then "\n" else "<br>\n")) ++
          format_lines rest fmton := rfl

theorem render_chunks_cons (line : String) (rest : List String) (fmton : Bool) :
    render_chunks (line :: rest) fmton =
      if isFence line then
        (if fmton then PRE_CLOSE else PRE_OPEN) :: render_chunks rest (!fmton)
      else
        (ent_encode line ++ (if fmton then "\n" else "<br>\n")) ::
          render_chunks rest fmton := rfl

theorem format_lines_eq_concat (lines : List String) (b : Bool) :
    format_lines lines b = str_concat (render_chunks lines b) := by
  induction lines generalizing b with
  | nil => rfl
  | cons line rest ih =>
    cases hf : isFence line
    · rw [format_lines_cons, render_chunks_cons, hf, if_neg Bool.false_ne_true,
        if_neg Bool.false_ne_true, str_concat_cons, ih]
    · rw [format_lines_cons, render_chunks_cons, hf, if_pos rfl, if_pos rfl,
        str_concat_cons, ih]

/-! ## JS platform helpers -/

/-- JS `String#length`: the number of UTF-16 code units of the string
(code points above `0xFFFF` count twice). -/
def js_strlen (s : String) : Nat :=
  (s.data.map (fun c => if c.toNat < 65536 then 1 else 2)).sum

/-- JS string coercion of a possibly absent value: `undefined` prints as
the string `"undefined"`. -/
def js_undef : Option String → String
  | none => "undefined"
  | some s => s

/-- JS truthiness of a possibly absent string: `undefined` and the empty
string are falsy. -/
def js_truthy : Option String → Bool
  | none => false
  | some s => !(s == "")

/-- Whether a string has the shape `YYYY-MM-DDTHH:MM:SS.mmmZ` accepted by
the date model below. -/
def iso_ts_valid (s : String) : Bool :=
  s.data.length == 24 &&
    (List.range 24).all (fun i =>
      let c := s.data.getD i ' '
      if i = 4 ∨ i = 7 then c == '-'
      else if i = 10 then c == 'T'
      else if i = 13 ∨ i = 16 then c == ':'
      else if i = 19 then c == '.'
      else if i = 23 then c == 'Z'
      else '0' ≤ c && c ≤ '9')

/-- Modelled from the spec: the platform's `new Date(x).toISOString()`,
which is not part of the repository sources.  Restricted to timestamps
already in ISO-8601 UTC form `YYYY-MM-DDTHH:MM:SS.mmmZ`, on which the
reformatting is the identity; `none` models the `RangeError` thrown when
`x` is absent (`new Date(undefined)`) or does not parse as a date. -/
def js_toISO : Option String → Option String
  | none => none
  | some s => if iso_ts_valid s then some s else none

/-! ## Data model: the upstream issue document -/

/-- `fields.resolution`. -/
structure Resolution where
  name : String
  description : String
deriving DecidableEq, Repr

/-- One entry of `fields.fixVersions`; `releaseDate` may be absent. -/
structure FixVersion where
  name : String
  releaseDate : Option String
deriving DecidableEq, Repr

/-- `comment.author`. -/
structure Author where
  displayName : String
deriving DecidableEq, Repr

/-- One entry of `comment.comments`. -/
structure Comment where
  author : Author
  created : String
  updated : Option String
  body : String
deriving DecidableEq, Repr

/-- `fields.comment`. -/
structure CommentField where
  maxResults : Int
  total : Int
  comments : List Comment
deriving DecidableEq, Repr

/-- `issue.fields`; every field the handler does not shape-check is
optional. -/
structure Fields where
  summary : String
  labels : Option (List String)
  resolution : Option Resolution
  resolutiondate : Option String
  fixVersions : Option (List FixVersion)
  description : Option String
  comment : Option CommentField
deriving DecidableEq, Repr

/-- The JSON document returned by the upstream `/issue/<key>` fetch;
`fields` may be absent. -/
structure IssueDoc where
  key : String
  fields : Option Fields
deriving DecidableEq, Repr

/-- One entry of the `/search` result used by the index page. -/
structure IssueSummary where
  key : String
  summary : String
deriving DecidableEq, Repr

/-! ## The issue page composer: JS `format_issue` -/

/-- The `if (issue.fields.resolution)` block of `format_issue`; `none`
models the `RangeError` thrown by `toISOString` when `resolutiondate` is
absent or unparsable. -/
def resolution_section (f : Fields) : Option String :=
  match f.resolution with
  | none => some ""
  | some r =>
    (js_toISO f.resolutiondate).map (fun iso =>
      "<h2>Resolution</h2>\n" ++
      "<p><b>" ++ r.name ++ ":</b> " ++ r.description ++ "<br>\n" ++
      "(Resolution Date: " ++ iso ++ ")</p>\n")

/-- The `if (issue.fields.fixVersions && issue.fields.fixVersions.length > 0)`
block of `format_issue`. -/
def fix_versions_section (f : Fields) : String :=
  match f.fixVersions with
  | none => ""
  | some vs =>
    if vs.length > 0 then
      "<h2>Fix Versions</h2>\n" ++
        str_concat (vs.map (fun fv =>
          "<p><b>" ++ fv.name ++ "</b> (Release Date: " ++
            js_undef fv.releaseDate ++ ")</p>\n"))
    else ""

/-- The `if (issue.fields.description)` block of `format_issue`; an empty
description string is falsy in JS and produces no section. -/
def description_section (f : Fields) : String :=
  match f.description with
  | none => ""
  | some d =>
    if d == "" then ""
    else "<h2>Description</h2>\n" ++ "<div>" ++ format_markup d ++ "</div>\n"

/-- One turn of the comment loop of `format_issue`: the `<div>` for a
single comment, shaded dark or light.  `none` models a `RangeError` from
`toISOString` on `created` or on a used, unparsable `updated`. -/
def render_comment (dark : Bool) (com : Comment) : Option String :=
  match js_toISO (some com.created) with
  | none => none
  | some ciso =>
    match
      (if js_truthy com.updated && !(com.updated == some com.created) then
        (js_toISO com.updated).map
          (fun uiso => "Updated at " ++ uiso ++ "<br>\n")
      else some "") with
    | none => none
    | some updLine =>
      some ("<div style=\"background-color: " ++
        (if dark then "#DDDDDD" else "#EEEEEE") ++ ";\">\n" ++
        "<b>" ++
        "Comment by " ++ com.author.displayName ++ "<br>\n" ++
        "Created at " ++ ciso ++ "<br>\n" ++
        updLine ++
        "</b>" ++
        format_markup com.body ++
        "</div><br>\n")

/-- The comment loop of `format_issue`, with its alternating `dark`
toggle. -/
def comments_loop (dark : Bool) : List Comment → Option String
  | [] => some ""
  | com :: rest =>
    match render_comment dark com with
    | none => none
    | some s => (comments_loop (!dark) rest).map (fun t => s ++ t)

/-- The `if (issue.fields.comment)` block of `format_issue`.  The
`maxResults !== total` comparison in the source only emits a log line and
does not affect the produced page, so it does not appear here. -/
def comments_section (f : Fields) : Option String :=
  match f.comment with
  | none => some ""
  | some c =>
    (comments_loop false c.comments).map
      (fun body => "<h2>Comments</h2>\n" ++ body)

/-- JS `format_issue` of the canonical variant: heading, then the
resolution, fix-versions, description and comments blocks in source
order.  `none` models a thrown exception. -/
def format_issue (issue : IssueDoc) : Option String :=
  match issue.fields with
  | none => none
  | some f =>
    match resolution_section f, comments_section f with
    | some rs, some cs =>
      some ("<h1>" ++ issue.key ++ ": " ++ f.summary ++ "</h1>\n" ++
        rs ++ fix_versions_section f ++ description_section f ++ cs)
    | _, _ => none

/-! ## Request handlers -/

/-- Fuel-indexed loop of `replace_all`; the fuel (the subject's length)
bounds the number of scanning steps. -/
def replace_go : Nat → List Char → List Char → List Char → List Char
  | 0, l, _, _ => l
  | fuel + 1, l, pat, rep =>
    match l with
    | [] => []
    | c :: rest =>
      if List.isPrefixOf pat l then
        rep ++ replace_go fuel (l.drop pat.length) pat rep
      else c :: replace_go fuel rest pat rep

/-- JS `s.replace(pattern, rep)` with a `/g` regex on a plain, non-empty
pattern: every non-overlapping occurrence, scanning left to right, is
replaced, and replaced text is not rescanned (the `$`-escapes JS supports
in the replacement string are not modelled; the templates' replacements
never contain them). -/
def replace_all (s pat rep : String) : String :=
  ⟨replace_go s.data.length s.data pat.data rep.data⟩

/-- The key check of `handle_issue`:
`req.params.key.match(/^[A-Z]+-[0-9]+$/)` (the empty key is also rejected,
both by JS falsiness and by the pattern). -/
def valid_key (s : String) : Bool :=
  match s.data.span (fun c => 'A' ≤ c && c ≤ 'Z') with
  | (as, rest) =>
    match rest with
    | '-' :: bs =>
      !as.isEmpty && !bs.isEmpty &&
        bs.all (fun c => '0' ≤ c && c ≤ '9')
    | _ => false

/-- An HTTP response as the handlers produce it: status, body, and the
`contentType`/`contentLength` response fields when the handler sets
them. -/
structure Response where
  status : Nat
  body : String
  contentType : Option String
  contentLength : Option Nat
deriving DecidableEq, Repr

/-- What a handler invocation did: `resp = none` models an uncaught JS
exception, and `upstreamCalled` records whether the JIRA client was
invoked. -/
structure Outcome where
  resp : Option Response
  upstreamCalled : Bool
deriving DecidableEq, Repr

/-- The possible results of the upstream `/issue/<key>` fetch: the
distinguishable `NotFoundError`, any other error, or a JSON payload
(`ok none` models a falsy payload). -/
inductive FetchResult where
  | notFound
  | err
  | ok (issue : Option IssueDoc)
deriving DecidableEq, Repr

/-- JS `handle_issue` of the canonical variant.  `label` is
`CONFIG.label`; `primary` is the `primary` template, into which the
formatted issue replaces every `%%CONTAINER%%`. -/
def handle_issue (label primary : String) (key : String)
    (fetch : FetchResult) : Outcome :=
  if !(valid_key key) then
    ⟨some ⟨400, "", none, none⟩, false⟩
  else
    ⟨(match fetch with
      | .notFound => some ⟨404, "Sorry, that issue does not exist.\n", none, none⟩
      | .err => some ⟨500, "", none, none⟩
      | .ok none => some ⟨500, "", none, none⟩
      | .ok (some doc) =>
        match doc.fields with
        | none => some ⟨500, "", none, none⟩
        | some f =>
          match f.labels with
          | none => some ⟨500, "", none, none⟩
          | some labels =>
            if !(labels.contains label) then
              some ⟨403, "Sorry, this issue is not public.\n", none, none⟩
            else
              match format_issue doc with
              | none => none
              | some page =>
                let out := replace_all primary "%%CONTAINER%%" page
                some ⟨200, out, some "text/html", some (js_strlen out)⟩),
      true⟩

/-- The possible results of the upstream label-filtered `/search` fetch. -/
inductive SearchResult where
  | err
  | ok (issues : List IssueSummary)
deriving DecidableEq, Repr

/-- One `<tr>` row of the issue index table. -/
def issue_row (i : IssueSummary) : String :=
  "<tr><td><a href=\"" ++ i.key ++ "\">" ++ i.key ++ "</a></td><td>" ++
    i.summary ++ "</td></tr>\n"

/-- JS `handle_issue_index` of the canonical variant: the rows replace
`%%TABLE_BODY%%` in the `issue_index` template, which in turn replaces
`%%CONTAINER%%` in the `primary` template. -/
def handle_issue_index (primary issue_index : String)
    (fetch : SearchResult) : Outcome :=
  match fetch with
  | .err => ⟨some ⟨500, "", none, none⟩, true⟩
  | .ok issues =>
    let tbody := str_concat (issues.map issue_row)
    let container := replace_all issue_index "%%TABLE_BODY%%" tbody
    let out := replace_all primary "%%CONTAINER%%" container
    ⟨some ⟨200, out, some "text/html", some (js_strlen out)⟩, true⟩

/-! ## Claim theorems -/

/-- C3: For every request whose key parameter is empty or does not match
the pattern `^[A-Z]+-[0-9]+$`, GetIssue responds 400 and performs no
upstream call. -/
theorem getIssue_invalid_key_400 (label primary key : String)
    (fetch : FetchResult) (h : valid_key key = false) :
    handle_issue label primary key fetch =
      ⟨some ⟨400, "", none, none⟩, false⟩ := by
  simp [handle_issue, h]

theorem getIssue_invalid_key_400_witness :
    valid_key "abc-1" = false ∧ valid_key "ABC1" = false ∧
      valid_key "" = false ∧
      handle_issue "public" "%%CONTAINER%%" "abc-1" .err =
        ⟨some ⟨400, "", none, none⟩, false⟩ :=
  ⟨by decide, by decide, by decide,
    getIssue_invalid_key_400 "public" "%%CONTAINER%%" "abc-1" .err (by decide)⟩

/-- C4: For every valid-key request, GetIssue maps upstream outcomes to
statuses: upstream "not found" yields 404 with exactly the body
`"Sorry, that issue does not exist.\n"`; any other upstream failure yields
500 with no detail in the body; a successful fetch whose document lacks
`fields` or `fields.labels` (or is falsy) yields 500. -/
theorem getIssue_upstream_status_map (label primary key : String)
    (hk : valid_key key = true) :
    handle_issue label primary key .notFound =
      ⟨some ⟨404, "Sorry, that issue does not exist.\n", none, none⟩, true⟩ ∧
    handle_issue label primary key .err =
      ⟨some ⟨500, "", none, none⟩, true⟩ ∧
    handle_issue label primary key (.ok none) =
      ⟨some ⟨500, "", none, none⟩, true⟩ ∧
    (∀ doc : IssueDoc, doc.fields = none →
      handle_issue label primary key (.ok (some doc)) =
        ⟨some ⟨500, "", none, none⟩, true⟩) ∧
    (∀ (doc : IssueDoc) (f : Fields), doc.fields = some f →
      f.labels = none →
      handle_issue label primary key (.ok (some doc)) =
        ⟨some ⟨500, "", none, none⟩, true⟩) := by
  refine ⟨?_, ?_, ?_, ?_, ?_⟩
  · simp [handle_issue, hk]
  · simp [handle_issue, hk]
  · simp [handle_issue, hk]
  · intro doc hdoc
    simp [handle_issue, hk, hdoc]
  · intro doc f hdoc hlab
    simp [handle_issue, hk, hdoc, hlab]

theorem getIssue_upstream_status_map_witness :
    valid_key "ABC-999" = true ∧
      handle_issue "public" "%%CONTAINER%%" "ABC-999" .notFound =
        ⟨some ⟨404, "Sorry, that issue does not exist.\n", none, none⟩,
          true⟩ :=
  ⟨by decide,
    (getIssue_upstream_status_map "public" "%%CONTAINER%%" "ABC-999"
      (by decide)).1⟩

/-- C1: For every fetched issue, GetIssue serves the composed issue page
only when the configured label is a member of `issue.fields.labels`
(case-sensitive exact string membership); when the label is absent it
responds 403 with the fixed body `"Sorry, this issue is not public.\n"`
(the same constant response for every issue, so no issue field content can
appear), and the composed page is only produced in the member branch. -/
theorem getIssue_label_gate (label primary key : String) (doc : IssueDoc)
    (f : Fields) (labels : List String) (hk : valid_key key = true)
    (hdoc : doc.fields = some f) (hlab : f.labels = some labels) :
    (labels.contains label = false →
      handle_issue label primary key (.ok (some doc)) =
        ⟨some ⟨403, "Sorry, this issue is not public.\n", none, none⟩,
          true⟩) ∧
    (labels.contains label = true →
      ∀ page, format_issue doc = some page →
        handle_issue label primary key (.ok (some doc)) =
          ⟨some ⟨200, replace_all primary "%%CONTAINER%%" page, some "text/html",
            some (js_strlen (replace_all primary "%%CONTAINER%%" page))⟩,
            true⟩) := by
  constructor
  · intro hno
    have hno' : label ∉ labels := by simpa using hno
    simp [handle_issue, hk, hdoc, hlab, hno']
  · intro hyes page hpage
    have hyes' : label ∈ labels := by simpa using hyes
    simp [handle_issue, hk, hdoc, hlab, hyes', hpage]

theorem getIssue_label_gate_witness :
    (handle_issue "public" "%%CONTAINER%%" "AB-1"
        (.ok (some ⟨"AB-1",
          some ⟨"secret stuff", some ["internal"], none, none, none, none,
            none⟩⟩)) =
      ⟨some ⟨403, "Sorry, this issue is not public.\n", none, none⟩,
        true⟩) ∧
    (handle_issue "public" "%%CONTAINER%%" "AB-1"
        (.ok (some ⟨"AB-1",
          some ⟨"ok", some ["public"], none, none, none, none, none⟩⟩)) =
      ⟨some ⟨200, "<h1>AB-1: ok</h1>\n", some "text/html",
        some (js_strlen "<h1>AB-1: ok</h1>\n")⟩, true⟩) := by
  constructor
  · exact (getIssue_label_gate "public" "%%CONTAINER%%" "AB-1"
      ⟨"AB-1", some ⟨"secret stuff", some ["internal"], none, none, none,
        none, none⟩⟩
      ⟨"secret stuff", some ["internal"], none, none, none, none, none⟩
      ["internal"] (by decide) rfl rfl).1 (by decide)
  · have h := (getIssue_label_gate "public" "%%CONTAINER%%" "AB-1"
      ⟨"AB-1", some ⟨"ok", some ["public"], none, none, none, none, none⟩⟩
      ⟨"ok", some ["public"], none, none, none, none, none⟩
      ["public"] (by decide) rfl rfl).2 (by decide)
      "<h1>AB-1: ok</h1>\n" (by rfl)
    have hrep : replace_all "%%CONTAINER%%" "%%CONTAINER%%"
        "<h1>AB-1: ok</h1>\n" = "<h1>AB-1: ok</h1>\n" := by decide
    rw [hrep] at h
    exact h

/-! ### Renderer structure lemmas -/

/-- The renderer's output for a run of non-fence lines outside any fence:
one entity-encoded, `<br>`-terminated line per input line. -/
def render_plain (lines : List String) : String :=
  str_concat (lines.map (fun l => ent_encode l ++ "<br>\n"))

/-- The renderer's output for a run of non-fence lines inside a fence:
one entity-encoded, newline-terminated line per input line. -/
def render_block (lines : List String) : String :=
  str_concat (lines.map (fun l => ent_encode l ++ "\n"))

theorem format_lines_no_fence (lines : List String)
    (h : ∀ l ∈ lines, isFence l = false) :
    format_lines lines false = render_plain lines := by
  induction lines with
  | nil => rfl
  | cons line rest ih =>
    have hf := h line (List.mem_cons_self _ _)
    rw [format_lines_cons, hf, if_neg Bool.false_ne_true,
      if_neg Bool.false_ne_true,
      ih (fun l hl => h l (List.mem_cons_of_mem _ hl))]
    rfl

theorem format_lines_mem_decomp (lines : List String) (b : Bool)
    (line : String) (hmem : line ∈ lines) (hnf : isFence line = false) :
    ∃ pre post, format_lines lines b = pre ++ ent_encode line ++ post := by
  induction lines generalizing b with
  | nil => cases hmem
  | cons head rest ih =>
    rcases List.mem_cons.mp hmem with heq | hmem'
    · subst heq
      cases b
      · refine ⟨"", "<br>\n" ++ format_lines rest false, ?_⟩
        rw [format_lines_cons, hnf, if_neg Bool.false_ne_true]
        simp [String.empty_append, String.append_assoc]
      · refine ⟨"", "\n" ++ format_lines rest true, ?_⟩
        rw [format_lines_cons, hnf, if_neg Bool.false_ne_true]
        simp [String.empty_append, String.append_assoc]
    · cases hfh : isFence head
      · obtain ⟨pre, post, hp⟩ := ih hmem' (b := b)
        refine ⟨(ent_encode head ++ (if b then "\n" else "<br>\n")) ++ pre,
          post, ?_⟩
        rw [format_lines_cons, hfh, if_neg Bool.false_ne_true, hp]
        simp only [String.append_assoc]
      · obtain ⟨pre, post, hp⟩ := ih hmem' (b := !b)
        refine ⟨(if b then PRE_CLOSE else PRE_OPEN) ++ pre, post, ?_⟩
        rw [format_lines_cons, hfh, if_pos rfl, hp]
        simp only [String.append_assoc]

theorem pair_free_lp_chunk (l : String) :
    pair_free '<' 'p' (ent_encode l ++ "<br>\n").data = true := by
  rw [String.data_append]
  apply pair_free_append
  · exact pair_free_of_not_mem _ _ _ (ent_encode_no_lt l)
  · decide
  · intro x y _ hy
    have hy' : y = '<' := by
      simp only [show ("<br>\n" : String).data = ['<', 'b', 'r', '>', '\n']
        from rfl, List.head?_cons, Option.some.injEq] at hy
      exact hy.symm
    intro hc
    rw [hy'] at hc
    exact absurd hc.2 (by decide)

theorem pair_free_lp_render_plain (lines : List String) :
    pair_free '<' 'p' (render_plain lines).data = true := by
  induction lines with
  | nil => rfl
  | cons l rest ih =>
    rw [render_plain, List.map_cons, str_concat_cons, String.data_append]
    apply pair_free_append
    · exact pair_free_lp_chunk l
    · exact ih
    · intro x y hx _
      have hxn : x = '\n' := by
        rw [String.data_append,
          List.getLast?_append_of_ne_nil _ (by decide)] at hx
        simp only [show ("<br>\n" : String).data = ['<', 'b', 'r', '>', '\n']
          from rfl] at hx
        simp only [List.getLast?] at hx
        have := hx
        simp at this
        exact this.symm
      intro hc
      rw [hxn] at hc
      exact absurd hc.1 (by decide)

theorem count_pre_zero_render_plain (lines : List String) :
    count_occ "<pre".data (render_plain lines).data = 0 :=
  count_occ_zero_of_pair_free '<' 'p' ['r', 'e'] _
    (pair_free_lp_render_plain lines)

/-- C2: For every input string and every line of it that is not a
fence-marker line, the renderer emits that line entity-encoded — the
encoded text appears in the output, it contains none of the
markup-significant characters `<`, `>`, `"`, `'`, and each of the
characters `&`, `<`, `>` and both quotes is escaped to an entity — so
untrusted upstream text is never interpretable as HTML markup. -/
theorem render_escapes_nonfence_lines (s line : String)
    (hmem : line ∈ splitLines s) (hnf : isFence line = false) :
    (∃ pre post, format_markup s = pre ++ ent_encode line ++ post) ∧
    (∀ c ∈ (ent_encode line).data,
      c ≠ '<' ∧ c ≠ '>' ∧ c ≠ '"' ∧ c ≠ '\'') ∧
    ent_encode "&" = "&amp;" ∧ ent_encode "<" = "&lt;" ∧
    ent_encode ">" = "&gt;" ∧ ent_encode "\"" = "&quot;" ∧
    ent_encode "'" = "&#39;" :=
  ⟨format_lines_mem_decomp (splitLines s) false line hmem hnf,
    ent_encode_data_safe line,
    by decide, by decide, by decide, by decide, by decide⟩

theorem render_escapes_nonfence_lines_witness :
    (∃ pre post, format_markup "a<b\nx" = pre ++ ent_encode "a<b" ++ post) ∧
    (∀ c ∈ (ent_encode "a<b").data,
      c ≠ '<' ∧ c ≠ '>' ∧ c ≠ '"' ∧ c ≠ '\'') ∧
    ent_encode "&" = "&amp;" ∧ ent_encode "<" = "&lt;" ∧
    ent_encode ">" = "&gt;" ∧ ent_encode "\"" = "&quot;" ∧
    ent_encode "'" = "&#39;" :=
  render_escapes_nonfence_lines "a<b\nx" "a<b" (by decide) (by decide)

/-- C6 (amended): the renderer is a total function by construction; for
any input with no fence-marker lines its output is exactly one
entity-encoded, `<br>`-terminated line per input line (lines split on both
bare `\n` and `\r\n`) and contains no `<pre>`; the empty string, however,
splits into one empty line and so renders as the single line `"<br>\n"`,
not as empty output. -/
theorem render_no_fence_shape (s : String)
    (h : ∀ l ∈ splitLines s, isFence l = false) :
    format_markup s = render_plain (splitLines s) ∧
    count_occ "<pre".data (format_markup s).data = 0 ∧
    format_markup "" = "<br>\n" := by
  have heq : format_markup s = render_plain (splitLines s) :=
    format_lines_no_fence (splitLines s) h
  refine ⟨heq, ?_, by decide⟩
  rw [heq]
  exact count_pre_zero_render_plain (splitLines s)

theorem render_no_fence_shape_witness :
    format_markup "a\r\nb" = render_plain (splitLines "a\r\nb") ∧
    count_occ "<pre".data (format_markup "a\r\nb").data = 0 ∧
    format_markup "" = "<br>\n" :=
  render_no_fence_shape "a\r\nb" (by decide)

/-- C6 counterexample: the renderer does not produce empty output for the
empty string — the empty string splits into one empty line, which renders
as a single `<br>`-terminated line. -/
theorem render_empty_string_cx :
    format_markup "" = "<br>\n" ∧ format_markup "" ≠ "" :=
  ⟨by decide, by decide⟩

/-! ### Fence-block structure lemmas -/

/-- The fence toggle state after processing a run of lines. -/
def after_state (lines : List String) (b : Bool) : Bool :=
  lines.foldl (fun st l => if isFence l then !st else st) b

theorem after_state_cons (x : String) (rest : List String) (b : Bool) :
    after_state (x :: rest) b =
      after_state rest (if isFence x then !b else b) := rfl

theorem after_state_no_fence (xs : List String) (b : Bool)
    (h : ∀ l ∈ xs, isFence l = false) : after_state xs b = b := by
  induction xs generalizing b with
  | nil => rfl
  | cons x rest ih =>
    rw [after_state_cons, h x (List.mem_cons_self _ _),
      if_neg Bool.false_ne_true]
    exact ih b (fun l hl => h l (List.mem_cons_of_mem _ hl))

theorem render_chunks_append (xs ys : List String) (b : Bool) :
    render_chunks (xs ++ ys) b =
      render_chunks xs b ++ render_chunks ys (after_state xs b) := by
  induction xs generalizing b with
  | nil => rfl
  | cons x rest ih =>
    rw [List.cons_append, render_chunks_cons, render_chunks_cons,
      after_state_cons]
    cases hf : isFence x
    · rw [if_neg Bool.false_ne_true, if_neg Bool.false_ne_true,
        if_neg Bool.false_ne_true, List.cons_append, ih]
    · rw [if_pos rfl, if_pos rfl, if_pos rfl, List.cons_append, ih]

theorem render_chunks_no_fence (xs : List String) (b : Bool)
    (h : ∀ l ∈ xs, isFence l = false) :
    render_chunks xs b =
      xs.map (fun l => ent_encode l ++ (if b then "\n" else "<br>\n")) := by
  induction xs with
  | nil => rfl
  | cons x rest ih =>
    rw [render_chunks_cons, h x (List.mem_cons_self _ _),
      if_neg Bool.false_ne_true, List.map_cons,
      ih (fun l hl => h l (List.mem_cons_of_mem _ hl))]

theorem plain_chunk_ne_tags (l sep : String)
    (hsep : sep = "<br>\n" ∨ sep = "\n") :
    (ent_encode l ++ sep) ≠ PRE_OPEN ∧ (ent_encode l ++ sep) ≠ PRE_CLOSE := by
  cases hdata : (ent_encode l).data with
  | nil =>
    have hempty : ent_encode l = "" := String.ext (by rw [hdata])
    rw [hempty, String.empty_append]
    rcases hsep with h | h <;> subst h <;> exact ⟨by decide, by decide⟩
  | cons c cs =>
    have hc : c ≠ '<' :=
      (ent_encode_data_safe l c
        (by rw [hdata]; exact List.mem_cons_self _ _)).1
    constructor <;> intro heq
    · have hd := congrArg String.data heq
      rw [String.data_append, hdata, List.cons_append] at hd
      have hhead : (c :: (cs ++ sep.data)).head? = PRE_OPEN.data.head? := by
        rw [hd]
      rw [List.head?_cons, show PRE_OPEN.data.head? = some '<' from rfl]
        at hhead
      exact hc (Option.some.injEq _ _ ▸ hhead)
    · have hd := congrArg String.data heq
      rw [String.data_append, hdata, List.cons_append] at hd
      have hhead : (c :: (cs ++ sep.data)).head? = PRE_CLOSE.data.head? := by
        rw [hd]
      rw [List.head?_cons, show PRE_CLOSE.data.head? = some '<' from rfl]
        at hhead
      exact hc (Option.some.injEq _ _ ▸ hhead)

theorem count_tags_map_zero (xs : List String) (sep : String)
    (hsep : sep = "<br>\n" ∨ sep = "\n") :
    (xs.map (fun l => ent_encode l ++ sep)).count PRE_OPEN = 0 ∧
    (xs.map (fun l => ent_encode l ++ sep)).count PRE_CLOSE = 0 := by
  constructor <;> rw [List.count_eq_zero] <;> intro hmem <;>
    obtain ⟨l, _, heq⟩ := List.mem_map.mp hmem
  · exact (plain_chunk_ne_tags l sep hsep).1 heq
  · exact (plain_chunk_ne_tags l sep hsep).2 heq

theorem render_chunks_count_tags (lines : List String) (b : Bool) :
    (render_chunks lines b).count PRE_OPEN =
      (if b then lines.countP (fun l => isFence l) / 2
       else (lines.countP (fun l => isFence l) + 1) / 2) ∧
    (render_chunks lines b).count PRE_CLOSE =
      (if b then (lines.countP (fun l => isFence l) + 1) / 2
       else lines.countP (fun l => isFence l) / 2) := by
  induction lines generalizing b with
  | nil => cases b <;> simp [render_chunks]
  | cons line rest ih =>
    have hoc : PRE_OPEN ≠ PRE_CLOSE := by decide
    have iho0 := (ih false).1
    have ihc0 := (ih false).2
    have iho1 := (ih true).1
    have ihc1 := (ih true).2
    simp only [Bool.false_eq_true, if_false, if_true] at iho0 ihc0 iho1 ihc1
    cases hf : isFence line
    · have hne1 := plain_chunk_ne_tags line "<br>\n" (Or.inl rfl)
      have hne2 := plain_chunk_ne_tags line "\n" (Or.inr rfl)
      cases b
      · simp [render_chunks_cons, hf, List.count_cons, List.countP_cons,
          hne1.1, hne1.2]
        omega
      · simp [render_chunks_cons, hf, List.count_cons, List.countP_cons,
          hne2.1, hne2.2]
        omega
    · cases b
      · simp [render_chunks_cons, hf, List.count_cons, List.countP_cons,
          hoc, Ne.symm hoc]
        omega
      · simp [render_chunks_cons, hf, List.count_cons, List.countP_cons,
          hoc, Ne.symm hoc]
        omega

theorem render_chunks_no_fence_false (xs : List String)
    (h : ∀ l ∈ xs, isFence l = false) :
    render_chunks xs false = xs.map (fun l => ent_encode l ++ "<br>\n") := by
  rw [render_chunks_no_fence xs false h]
  simp

theorem render_chunks_no_fence_true (xs : List String)
    (h : ∀ l ∈ xs, isFence l = false) :
    render_chunks xs true = xs.map (fun l => ent_encode l ++ "\n") := by
  rw [render_chunks_no_fence xs true h]
  simp

theorem render_block_no_lt (ms : List String) :
    '<' ∉ (render_block ms).data := by
  induction ms with
  | nil => simp [render_block, str_concat]
  | cons l rest ih =>
    intro hmem
    rw [render_block, List.map_cons, str_concat_cons, String.data_append,
      String.data_append] at hmem
    rcases List.mem_append.mp hmem with h | h
    · rcases List.mem_append.mp h with h' | h'
      · exact ent_encode_no_lt l h'
      · simp at h'
    · exact ih h

theorem countP_fence_zero (xs : List String)
    (h : ∀ l ∈ xs, isFence l = false) :
    xs.countP (fun l => isFence l) = 0 := by
  rw [List.countP_eq_zero]
  intro a ha
  simp [h a ha]

/-- C5: For an input consisting of exactly one matched pair of
fence-marker lines, the content between the markers appears
(entity-encoded, line by line) inside exactly one `<pre>...</pre>` pair,
joined with literal newlines and containing no `<` at all (hence no
`<br>` tags); for an input with an odd number of fence-marker lines the
renderer emits one more opening `<pre>` tag than closing `</pre>` tags
(the fence is not auto-closed). -/
theorem render_fence_pair (s : String) (xs ms ys : List String)
    (f1 f2 : String)
    (hx : ∀ l ∈ xs, isFence l = false) (hm : ∀ l ∈ ms, isFence l = false)
    (hy : ∀ l ∈ ys, isFence l = false)
    (hf1 : isFence f1 = true) (hf2 : isFence f2 = true)
    (hsplit : splitLines s = xs ++ f1 :: (ms ++ f2 :: ys)) :
    format_markup s =
      render_plain xs ++ (PRE_OPEN ++ (render_block ms ++ (PRE_CLOSE ++
        render_plain ys))) ∧
    (render_chunks (splitLines s) false).count PRE_OPEN = 1 ∧
    (render_chunks (splitLines s) false).count PRE_CLOSE = 1 ∧
    '<' ∉ (render_block ms).data ∧
    (∀ t : String, (splitLines t).countP (fun l => isFence l) % 2 = 1 →
      (render_chunks (splitLines t) false).count PRE_OPEN =
        (render_chunks (splitLines t) false).count PRE_CLOSE + 1) := by
  have hchunks : render_chunks (splitLines s) false =
      (xs.map (fun l => ent_encode l ++ "<br>\n")) ++ PRE_OPEN ::
        ((ms.map (fun l => ent_encode l ++ "\n")) ++ PRE_CLOSE ::
          (ys.map (fun l => ent_encode l ++ "<br>\n"))) := by
    rw [hsplit, render_chunks_append, after_state_no_fence xs false hx,
      render_chunks_no_fence_false xs hx, render_chunks_cons, hf1,
      if_pos rfl, if_neg Bool.false_ne_true, Bool.not_false,
      render_chunks_append, after_state_no_fence ms true hm,
      render_chunks_no_fence_true ms hm, render_chunks_cons, hf2,
      if_pos rfl, if_pos rfl, Bool.not_true,
      render_chunks_no_fence_false ys hy]
  have hk : (splitLines s).countP (fun l => isFence l) = 2 := by
    rw [hsplit, List.countP_append, List.countP_cons, List.countP_append,
      List.countP_cons, countP_fence_zero xs hx, countP_fence_zero ms hm,
      countP_fence_zero ys hy]
    simp [hf1, hf2]
  have hcounts := render_chunks_count_tags (splitLines s) false
  refine ⟨?_, ?_, ?_, render_block_no_lt ms, ?_⟩
  · have hf : format_markup s = str_concat (render_chunks (splitLines s)
        false) := format_lines_eq_concat (splitLines s) false
    rw [hf, hchunks, str_concat_append, str_concat_cons, str_concat_append,
      str_concat_cons]
    rfl
  · rw [hcounts.1, hk]
    simp
  · rw [hcounts.2, hk]
    simp
  · intro t hodd
    have hc := render_chunks_count_tags (splitLines t) false
    rw [hc.1, hc.2]
    simp only [Bool.false_eq_true, if_false]
    omega

theorem render_fence_pair_witness :
    format_markup "a\n\x7bcode:java\x7d\nmid<\n\x7bcode\x7d\nb" =
      render_plain ["a"] ++ (PRE_OPEN ++ (render_block ["mid<"] ++
        (PRE_CLOSE ++ render_plain ["b"]))) ∧
    (render_chunks
      (splitLines "a\n\x7bcode:java\x7d\nmid<\n\x7bcode\x7d\nb")
      false).count PRE_OPEN = 1 ∧
    (render_chunks
      (splitLines "a\n\x7bcode:java\x7d\nmid<\n\x7bcode\x7d\nb")
      false).count PRE_CLOSE = 1 ∧
    '<' ∉ (render_block ["mid<"]).data ∧
    (render_chunks (splitLines "\x7bnoformat") false).count PRE_OPEN =
      (render_chunks (splitLines "\x7bnoformat") false).count PRE_CLOSE
        + 1 := by
  have h := render_fence_pair "a\n\x7bcode:java\x7d\nmid<\n\x7bcode\x7d\nb"
    ["a"] ["mid<"] ["b"] "\x7bcode:java\x7d" "\x7bcode\x7d"
    (by decide) (by decide) (by decide) (by decide) (by decide) (by decide)
  exact ⟨h.1, h.2.1, h.2.2.1, h.2.2.2.1,
    h.2.2.2.2 "\x7bnoformat" (by decide)⟩

/-! ### Composer lemmas -/

/-- The timestamps an issue carries parse wherever `format_issue`
evaluates them: the resolution date whenever a resolution is present, and
each comment's `created` (and its `updated` when it is present, non-empty
and differs from `created`). -/
def dates_ok (f : Fields) : Prop :=
  (∀ r, f.resolution = some r →
    ∃ d, f.resolutiondate = some d ∧ iso_ts_valid d = true) ∧
  (∀ cf, f.comment = some cf → ∀ com ∈ cf.comments,
    iso_ts_valid com.created = true ∧
    (∀ u, com.updated = some u → u ≠ "" → u ≠ com.created →
      iso_ts_valid u = true))

theorem ne_empty_of_data_ne_nil (a t : String) (h : a.data ≠ []) :
    a ++ t ≠ "" := by
  intro he
  have hd := congrArg String.data he
  rw [String.data_append] at hd
  exact h (List.append_eq_nil.mp hd).1

theorem append_left_ne_empty (a t : String) (h : a ≠ "") :
    a ++ t ≠ "" := by
  intro he
  have hd := congrArg String.data he
  rw [String.data_append] at hd
  exact h (String.ext (List.append_eq_nil.mp hd).1)

theorem render_comment_isSome (dark : Bool) (com : Comment)
    (h1 : iso_ts_valid com.created = true)
    (h2 : ∀ u, com.updated = some u → u ≠ "" → u ≠ com.created →
      iso_ts_valid u = true) :
    ∃ out, render_comment dark com = some out := by
  have hcr : js_toISO (some com.created) = some com.created := by
    rw [js_toISO, if_pos h1]
  cases hcond : (js_truthy com.updated &&
      !(com.updated == some com.created))
  · rw [render_comment]
    simp only [hcr, hcond, Bool.false_eq_true, if_false]
    exact ⟨_, rfl⟩
  · rw [Bool.and_eq_true, Bool.not_eq_true'] at hcond
    obtain ⟨htr, hne⟩ := hcond
    cases hu : com.updated with
    | none => rw [hu] at htr; exact absurd htr (by simp [js_truthy])
    | some u =>
      have hu1 : u ≠ "" := by
        intro he
        rw [hu, he] at htr
        simp [js_truthy] at htr
      have hu2 : u ≠ com.created := by
        intro he
        rw [hu, he] at hne
        simp at hne
      have huv : js_toISO (some u) = some u := by
        rw [js_toISO, if_pos (h2 u hu hu1 hu2)]
      rw [render_comment]
      have hcondtrue : (js_truthy (some u) &&
          !((some u : Option String) == some com.created)) = true := by
        simp [js_truthy, hu1, hu2]
      simp only [hcr, hu, hcondtrue, if_true, huv]
      simp only [Option.map]
      exact ⟨_, rfl⟩

theorem comments_loop_isSome (l : List Comment) (dark : Bool)
    (h : ∀ com ∈ l, iso_ts_valid com.created = true ∧
      (∀ u, com.updated = some u → u ≠ "" → u ≠ com.created →
        iso_ts_valid u = true)) :
    ∃ out, comments_loop dark l = some out := by
  induction l generalizing dark with
  | nil => exact ⟨"", rfl⟩
  | cons com rest ih =>
    obtain ⟨hc1, hc2⟩ := h com (List.mem_cons_self _ _)
    obtain ⟨s0, hs0⟩ := render_comment_isSome dark com hc1 hc2
    obtain ⟨t, ht⟩ := ih (!dark) (fun c hc => h c (List.mem_cons_of_mem _ hc))
    refine ⟨s0 ++ t, ?_⟩
    rw [comments_loop, hs0, ht]
    rfl

/-- C7 (amended): `composeIssue` never throws for any issue whose optional
fields (resolution, resolutiondate, fixVersions, description, comment)
are absent in any combination in which `resolutiondate` is present (and
parsable) whenever `resolution` is present; the Resolution and Comments
sections appear exactly when their fields are present, while the Fix
Versions section appears exactly when `fixVersions` is present and
non-empty and the Description section exactly when `description` is
present and non-empty (in JS an empty array is truthy but guarded by a
length check, and an empty string is falsy). -/
theorem composeIssue_total_sections (key : String) (f : Fields)
    (h : dates_ok f) :
    ∃ rs cs, resolution_section f = some rs ∧ comments_section f = some cs ∧
      format_issue ⟨key, some f⟩ =
        some ("<h1>" ++ key ++ ": " ++ f.summary ++ "</h1>\n" ++
          rs ++ fix_versions_section f ++ description_section f ++ cs) ∧
      (rs = "" ↔ f.resolution = none) ∧
      (fix_versions_section f = "" ↔
        (f.fixVersions = none ∨ f.fixVersions = some [])) ∧
      (description_section f = "" ↔
        (f.description = none ∨ f.description = some "")) ∧
      (cs = "" ↔ f.comment = none) := by
  obtain ⟨hres, hcom⟩ := h
  -- the resolution section

  have hrs : ∃ rs, resolution_section f = some rs ∧
      (rs = "" ↔ f.resolution = none) := by
    cases hr : f.resolution with
    | none => exact ⟨"", by rw [resolution_section, hr], by simp⟩
    | some r =>
      obtain ⟨d, hd, hdv⟩ := hres r hr
      have hdv' : js_toISO (some d) = some d := by
        rw [js_toISO, if_pos hdv]
      refine ⟨"<h2>Resolution</h2>\n" ++ "<p><b>" ++ r.name ++ ":</b> " ++
        r.description ++ "<br>\n" ++ "(Resolution Date: " ++ d ++
        ")</p>\n", ?_, ?_⟩
      · simp only [resolution_section, hr, hd, hdv', Option.map]
      · constructor
        · intro he
          refine absurd he ?_
          repeat apply append_left_ne_empty
          decide
        · intro he
          simp at he
  obtain ⟨rs, hrseq, hrsiff⟩ := hrs

  have hcs : ∃ cs, comments_section f = some cs ∧
      (cs = "" ↔ f.comment = none) := by
    cases hc : f.comment with
    | none => exact ⟨"", by rw [comments_section, hc], by simp⟩
    | some cf =>
      obtain ⟨body, hbody⟩ := comments_loop_isSome cf.comments false
        (hcom cf hc)
      refine ⟨"<h2>Comments</h2>\n" ++ body, ?_, ?_⟩
      · simp only [comments_section, hc, hbody, Option.map]
      · constructor
        · intro he
          refine absurd he ?_
          repeat apply append_left_ne_empty
          decide
        · intro he
          simp at he
  obtain ⟨cs, hcseq, hcsiff⟩ := hcs

  refine ⟨rs, cs, hrseq, hcseq, ?_, hrsiff, ?_, ?_, hcsiff⟩
  · rw [format_issue]
    simp only [hrseq, hcseq]
  · cases hv : f.fixVersions with
    | none => simp [fix_versions_section, hv]
    | some vs =>
      cases vs with
      | nil => simp [fix_versions_section, hv]
      | cons v vrest =>
        rw [show fix_versions_section f = "<h2>Fix Versions</h2>\n" ++
          str_concat ((v :: vrest).map (fun fv => "<p><b>" ++ fv.name ++
            "</b> (Release Date: " ++ js_undef fv.releaseDate ++
            ")</p>\n"))
          from by simp [fix_versions_section, hv]]
        constructor
        · intro he
          refine absurd he ?_
          apply append_left_ne_empty
          decide
        · intro he
          rcases he with he | he <;> simp at he
  · cases hd : f.description with
    | none => simp [description_section, hd]
    | some d =>
      cases hde : (d == "")
      · have hd' : description_section f =
            "<h2>Description</h2>\n" ++ "<div>" ++ format_markup d ++
              "</div>\n" := by
          simp [description_section, hd, hde]
        rw [hd']
        constructor
        · intro he
          refine absurd he ?_
          repeat apply append_left_ne_empty
          decide
        · intro he
          rcases he with he | he
          · simp at he
          · rw [Option.some.injEq] at he
            rw [he] at hde
            simp at hde
      · have hd0 : d = "" := by simpa using hde
        subst hd0
        simp [description_section, hd]

theorem composeIssue_total_sections_witness :
    ∃ rs cs,
      resolution_section
        ⟨"s", some ["public"], some ⟨"Fixed", "done"⟩,
          some "2014-01-07T20:14:28.000Z", some [⟨"v1", none⟩],
          some "hello", none⟩ = some rs ∧
      comments_section
        ⟨"s", some ["public"], some ⟨"Fixed", "done"⟩,
          some "2014-01-07T20:14:28.000Z", some [⟨"v1", none⟩],
          some "hello", none⟩ = some cs ∧
      format_issue ⟨"AB-1", some
        ⟨"s", some ["public"], some ⟨"Fixed", "done"⟩,
          some "2014-01-07T20:14:28.000Z", some [⟨"v1", none⟩],
          some "hello", none⟩⟩ =
        some ("<h1>" ++ "AB-1" ++ ": " ++ "s" ++ "</h1>\n" ++ rs ++
          fix_versions_section
            ⟨"s", some ["public"], some ⟨"Fixed", "done"⟩,
              some "2014-01-07T20:14:28.000Z", some [⟨"v1", none⟩],
              some "hello", none⟩ ++
          description_section
            ⟨"s", some ["public"], some ⟨"Fixed", "done"⟩,
              some "2014-01-07T20:14:28.000Z", some [⟨"v1", none⟩],
              some "hello", none⟩ ++ cs) ∧
      (rs = "" ↔ (some (⟨"Fixed", "done"⟩ : Resolution) : Option Resolution)
        = none) ∧
      (fix_versions_section
          ⟨"s", some ["public"], some ⟨"Fixed", "done"⟩,
            some "2014-01-07T20:14:28.000Z", some [⟨"v1", none⟩],
            some "hello", none⟩ = "" ↔
        ((some [(⟨"v1", none⟩ : FixVersion)] : Option (List FixVersion))
            = none ∨
          (some [(⟨"v1", none⟩ : FixVersion)] : Option (List FixVersion))
            = some [])) ∧
      (description_section
          ⟨"s", some ["public"], some ⟨"Fixed", "done"⟩,
            some "2014-01-07T20:14:28.000Z", some [⟨"v1", none⟩],
            some "hello", none⟩ = "" ↔
        ((some "hello" : Option String) = none ∨
          (some "hello" : Option String) = some "")) ∧
      (cs = "" ↔ (none : Option CommentField) = none) :=
  composeIssue_total_sections "AB-1"
    ⟨"s", some ["public"], some ⟨"Fixed", "done"⟩,
      some "2014-01-07T20:14:28.000Z", some [⟨"v1", none⟩],
      some "hello", none⟩
    ⟨fun r hr => ⟨"2014-01-07T20:14:28.000Z", rfl, by decide⟩,
      fun cf hcf => by cases hcf⟩

/-- C7 counterexample: as stated, the claim is false on two counts.  The
composer throws (`RangeError` from `toISOString`) for the absence
combination "resolution present, resolutiondate absent"; and a present
`fixVersions` field that is an empty array produces no Fix Versions
section, so a section does not appear "exactly when" its field is
present. -/
theorem composeIssue_total_sections_cx :
    format_issue ⟨"A-1", some ⟨"s", some ["public"], some ⟨"Fixed", "x"⟩,
      none, none, none, none⟩⟩ = none ∧
    (fix_versions_section ⟨"s", some ["public"], none, none, some [],
        none, none⟩ = "" ∧
      (⟨"s", some ["public"], none, none, some [], none, none⟩ :
        Fields).fixVersions.isSome = true ∧
      format_issue ⟨"A-1", some ⟨"s", some ["public"], none, none, some [],
        none, none⟩⟩ = some "<h1>A-1: s</h1>\n") := by
  refine ⟨by decide, by decide, by decide, by decide⟩

/-! ### Comment-loop structure lemmas -/

theorem xor_parity (dark : Bool) (i : Nat) :
    Bool.xor dark (decide ((i + 1) % 2 = 1)) =
      Bool.xor (!dark) (decide (i % 2 = 1)) := by
  rcases Nat.mod_two_eq_zero_or_one i with h | h
  · have h1 : (i + 1) % 2 = 1 := by omega
    rw [h, h1]
    cases dark <;> decide
  · have h1 : (i + 1) % 2 = 0 := by omega
    rw [h, h1]
    cases dark <;> decide

theorem comments_loop_enum (l : List Comment) (dark : Bool)
    (h : ∀ com ∈ l, iso_ts_valid com.created = true ∧
      (∀ u, com.updated = some u → u ≠ "" → u ≠ com.created →
        iso_ts_valid u = true)) :
    ∃ parts : List String,
      comments_loop dark l = some (str_concat parts) ∧
      parts.length = l.length ∧
      ∀ i com, l.get? i = some com →
        render_comment (Bool.xor dark (decide (i % 2 = 1))) com =
          parts.get? i := by
  induction l generalizing dark with
  | nil =>
    refine ⟨[], rfl, rfl, fun i com hc => ?_⟩
    simp at hc
  | cons com rest ih =>
    obtain ⟨hc1, hc2⟩ := h com (List.mem_cons_self _ _)
    obtain ⟨s0, hs0⟩ := render_comment_isSome dark com hc1 hc2
    obtain ⟨parts, hploop, hplen, hpidx⟩ :=
      ih (!dark) (fun c hc => h c (List.mem_cons_of_mem _ hc))
    refine ⟨s0 :: parts, ?_, by simp [hplen], ?_⟩
    · rw [comments_loop, hs0, hploop]
      rfl
    · intro i c hc
      cases i with
      | zero =>
        have hcc : com = c := by simpa using hc
        subst hcc
        rw [show Bool.xor dark (decide (0 % 2 = 1)) = dark by
          cases dark <;> decide]
        rw [hs0]
        rfl
      | succ n =>
        have hcn : rest.get? n = some c := by simpa using hc
        rw [xor_parity dark n]
        rw [hpidx n c hcn]
        rfl

theorem resolution_section_isSome (f : Fields)
    (hres : ∀ r, f.resolution = some r →
      ∃ d, f.resolutiondate = some d ∧ iso_ts_valid d = true) :
    ∃ rs, resolution_section f = some rs := by
  cases hr : f.resolution with
  | none => exact ⟨"", by rw [resolution_section, hr]⟩
  | some r =>
    obtain ⟨d, hd, hdv⟩ := hres r hr
    have hdv' : js_toISO (some d) = some d := by
      rw [js_toISO, if_pos hdv]
    exact ⟨"<h2>Resolution</h2>\n" ++ "<p><b>" ++ r.name ++ ":</b> " ++
      r.description ++ "<br>\n" ++ "(Resolution Date: " ++ d ++ ")</p>\n",
      by simp only [resolution_section, hr, hd, hdv', Option.map]⟩

theorem render_comment_head (dark : Bool) (com : Comment) (out : String)
    (h : render_comment dark com = some out) :
    ∃ t, out = ("<div style=\"background-color: " ++
      (if dark then "#DDDDDD" else "#EEEEEE") ++ ";\">\n") ++ t := by
  rw [render_comment] at h
  cases hcr : js_toISO (some com.created) with
  | none =>
    rw [hcr] at h
    simp at h
  | some ciso =>
    rw [hcr] at h
    cases hupd : (if js_truthy com.updated &&
        !(com.updated == some com.created) then
      (js_toISO com.updated).map
        (fun uiso => "Updated at " ++ uiso ++ "<br>\n")
    else some "") with
    | none =>
      rw [hupd] at h
      simp at h
    | some updLine =>
      rw [hupd] at h
      simp only [Option.some.injEq] at h
      refine ⟨"<b>" ++ ("Comment by " ++ (com.author.displayName ++
        ("<br>\n" ++ ("Created at " ++ (ciso ++ ("<br>\n" ++ (updLine ++
        ("</b>" ++ (format_markup com.body ++ "</div><br>\n"))))))))),
        ?_⟩
      rw [← h]
      simp only [String.append_assoc]

theorem render_comment_updated_irrelevant (dark : Bool) (com : Comment)
    (h : com.updated = none ∨ com.updated = some "" ∨
      com.updated = some com.created) :
    render_comment dark com =
      render_comment dark { com with updated := none } := by
  have hcond : (js_truthy com.updated &&
      !(com.updated == some com.created)) = false := by
    rcases h with h | h | h <;> rw [h] <;> simp [js_truthy]
  have h2 : (js_truthy (none : Option String) &&
      !((none : Option String) == some com.created)) = false := by
    simp [js_truthy]
  simp only [render_comment, hcond, h2, Bool.false_eq_true, if_false]

/-- C8: For every issue whose comment field reports `maxResults ≠ total`
but which passes the key, fetch, shape and label checks, GetIssue still
responds 200 with the composed page (the mismatch only produces a log
line and no re-fetch: the handler performs a single upstream call and
renders from the array it was given); the comments section renders
exactly the comments present in the array, in order, the i-th comment
shaded light (`#EEEEEE`) for even i and dark (`#DDDDDD`) for odd i; and a
comment's rendering is identical to that of the same comment without
`updated` whenever `updated` is absent, empty, or equal to `created` — so
an "Updated at" line appears only when `updated` is present and
differs. -/
theorem getIssue_comment_mismatch (label primary key : String)
    (doc : IssueDoc) (f : Fields) (labels : List String)
    (cf : CommentField)
    (hk : valid_key key = true) (hdoc : doc.fields = some f)
    (hlab : f.labels = some labels) (hmem : labels.contains label = true)
    (hcf : f.comment = some cf) (hmr : cf.maxResults ≠ cf.total)
    (hd : dates_ok f) :
    ∃ page parts,
      handle_issue label primary key (.ok (some doc)) =
        ⟨some ⟨200, replace_all primary "%%CONTAINER%%" page,
          some "text/html",
          some (js_strlen (replace_all primary "%%CONTAINER%%" page))⟩,
          true⟩ ∧
      format_issue doc = some page ∧
      comments_section f =
        some ("<h2>Comments</h2>\n" ++ str_concat parts) ∧
      parts.length = cf.comments.length ∧
      (∀ i com, cf.comments.get? i = some com →
        render_comment (decide (i % 2 = 1)) com = parts.get? i) ∧
      (∀ com out, render_comment false com = some out →
        ∃ t, out = "<div style=\"background-color: #EEEEEE;\">\n" ++ t) ∧
      (∀ com out, render_comment true com = some out →
        ∃ t, out = "<div style=\"background-color: #DDDDDD;\">\n" ++ t) ∧
      (∀ dark com, (com.updated = none ∨ com.updated = some "" ∨
          com.updated = some com.created) →
        render_comment dark com =
          render_comment dark { com with updated := none }) := by
  obtain ⟨hres, hcom⟩ := hd
  obtain ⟨parts, hploop, hplen, hpidx⟩ :=
    comments_loop_enum cf.comments false (hcom cf hcf)
  obtain ⟨rs, hrs⟩ := resolution_section_isSome f hres
  have hcs : comments_section f =
      some ("<h2>Comments</h2>\n" ++ str_concat parts) := by
    simp only [comments_section, hcf, hploop, Option.map]
  have hpage : format_issue doc =
      some ("<h1>" ++ doc.key ++ ": " ++ f.summary ++ "</h1>\n" ++
        rs ++ fix_versions_section f ++ description_section f ++
        ("<h2>Comments</h2>\n" ++ str_concat parts)) := by
    cases doc with
    | mk k fl =>
      simp only at hdoc
      subst hdoc
      rw [format_issue]
      simp only [hrs, hcs]
  refine ⟨_, parts, ?_, hpage, hcs, hplen, ?_, ?_, ?_, ?_⟩
  · have hmem' : label ∈ labels := by simpa using hmem
    simp [handle_issue, hk, hdoc, hlab, hmem', hpage]
  · intro i com hc
    have h := hpidx i com hc
    rwa [Bool.false_xor] at h
  · intro com out h
    obtain ⟨t, ht⟩ := render_comment_head false com out h
    refine ⟨t, ?_⟩
    rw [ht, show ("<div style=\"background-color: " ++
      (if false then "#DDDDDD" else "#EEEEEE") ++ ";\">\n" : String) =
      "<div style=\"background-color: #EEEEEE;\">\n" from by decide]
  · intro com out h
    obtain ⟨t, ht⟩ := render_comment_head true com out h
    refine ⟨t, ?_⟩
    rw [ht, show ("<div style=\"background-color: " ++
      (if true then "#DDDDDD" else "#EEEEEE") ++ ";\">\n" : String) =
      "<div style=\"background-color: #DDDDDD;\">\n" from by decide]
  · exact render_comment_updated_irrelevant

theorem getIssue_comment_mismatch_witness :
    ∃ page parts,
      handle_issue "public" "%%CONTAINER%%" "AB-1" (.ok (some ⟨"AB-1", some ⟨"s", some ["public"], none, none, none, none, some ⟨5, 6, [⟨⟨"Al"⟩, "2014-01-07T20:14:28.000Z", none, "hi"⟩, ⟨⟨"Bo"⟩, "2014-01-07T20:14:28.000Z", some "2015-02-08T21:15:29.000Z", "yo"⟩]⟩⟩⟩)) =
        ⟨some ⟨200, replace_all "%%CONTAINER%%" "%%CONTAINER%%" page,
          some "text/html",
          some (js_strlen
            (replace_all "%%CONTAINER%%" "%%CONTAINER%%" page))⟩,
          true⟩ ∧
      format_issue ⟨"AB-1", some ⟨"s", some ["public"], none, none, none, none, some ⟨5, 6, [⟨⟨"Al"⟩, "2014-01-07T20:14:28.000Z", none, "hi"⟩, ⟨⟨"Bo"⟩, "2014-01-07T20:14:28.000Z", some "2015-02-08T21:15:29.000Z", "yo"⟩]⟩⟩⟩ = some page ∧
      comments_section ⟨"s", some ["public"], none, none, none, none, some ⟨5, 6, [⟨⟨"Al"⟩, "2014-01-07T20:14:28.000Z", none, "hi"⟩, ⟨⟨"Bo"⟩, "2014-01-07T20:14:28.000Z", some "2015-02-08T21:15:29.000Z", "yo"⟩]⟩⟩ =
        some ("<h2>Comments</h2>\n" ++ str_concat parts) ∧
      parts.length = (⟨5, 6, [⟨⟨"Al"⟩, "2014-01-07T20:14:28.000Z", none, "hi"⟩, ⟨⟨"Bo"⟩, "2014-01-07T20:14:28.000Z", some "2015-02-08T21:15:29.000Z", "yo"⟩]⟩ : CommentField).comments.length ∧
      (∀ i com, (⟨5, 6, [⟨⟨"Al"⟩, "2014-01-07T20:14:28.000Z", none, "hi"⟩, ⟨⟨"Bo"⟩, "2014-01-07T20:14:28.000Z", some "2015-02-08T21:15:29.000Z", "yo"⟩]⟩ : CommentField).comments.get? i = some com →
        render_comment (decide (i % 2 = 1)) com = parts.get? i) ∧
      (∀ com out, render_comment false com = some out →
        ∃ t, out = "<div style=\"background-color: #EEEEEE;\">\n" ++ t) ∧
      (∀ com out, render_comment true com = some out →
        ∃ t, out = "<div style=\"background-color: #DDDDDD;\">\n" ++ t) ∧
      (∀ dark com, (com.updated = none ∨ com.updated = some "" ∨
          com.updated = some com.created) →
        render_comment dark com =
          render_comment dark { com with updated := none }) :=
  getIssue_comment_mismatch "public" "%%CONTAINER%%" "AB-1"
    ⟨"AB-1", some ⟨"s", some ["public"], none, none, none, none, some ⟨5, 6, [⟨⟨"Al"⟩, "2014-01-07T20:14:28.000Z", none, "hi"⟩, ⟨⟨"Bo"⟩, "2014-01-07T20:14:28.000Z", some "2015-02-08T21:15:29.000Z", "yo"⟩]⟩⟩⟩ ⟨"s", some ["public"], none, none, none, none, some ⟨5, 6, [⟨⟨"Al"⟩, "2014-01-07T20:14:28.000Z", none, "hi"⟩, ⟨⟨"Bo"⟩, "2014-01-07T20:14:28.000Z", some "2015-02-08T21:15:29.000Z", "yo"⟩]⟩⟩ ["public"] ⟨5, 6, [⟨⟨"Al"⟩, "2014-01-07T20:14:28.000Z", none, "hi"⟩, ⟨⟨"Bo"⟩, "2014-01-07T20:14:28.000Z", some "2015-02-08T21:15:29.000Z", "yo"⟩]⟩
    (by decide) rfl rfl (by decide) rfl (by decide)
    ⟨fun r hr => absurd hr (by simp),
      fun cf' hcf' => by
        have hcc : cf' = ⟨5, 6, [⟨⟨"Al"⟩, "2014-01-07T20:14:28.000Z", none, "hi"⟩, ⟨⟨"Bo"⟩, "2014-01-07T20:14:28.000Z", some "2015-02-08T21:15:29.000Z", "yo"⟩]⟩ := by
          have h := hcf'
          simp only [Option.some.injEq] at h
          exact h.symm
        subst hcc
        intro com hcom
        simp only [List.mem_cons, List.not_mem_nil, or_false] at hcom
        rcases hcom with h | h
        · subst h
          exact ⟨by decide, fun u hu => absurd hu (by simp)⟩
        · subst h
          refine ⟨by decide, ?_⟩
          intro u hu h1 h2
          have hu' : u = "2015-02-08T21:15:29.000Z" := by
            simp only [Option.some.injEq] at hu
            exact hu.symm
          subst hu'
          decide⟩

/-- C9 (code bug): both handlers set Content-Length to the JS string
length of the body — `js_strlen`, the UTF-16 code-unit count — and then
write the body UTF-8 encoded, so for any body containing a non-ASCII
character the declared Content-Length is smaller than the byte length
actually written.  Here a summary (resp. an index synopsis) containing
"é" produces a 200 response whose Content-Length is the code-unit count
and differs from the body's UTF-8 byte size; the Content-Type is
text/html as specified. -/
theorem contentLength_not_bytes_bug :
    (handle_issue "public" "%%CONTAINER%%" "AB-1"
        (.ok (some ⟨"AB-1", some ⟨"é", some ["public"], none, none, none,
          none, none⟩⟩)) =
      ⟨some ⟨200, "<h1>AB-1: é</h1>\n", some "text/html",
        some (js_strlen "<h1>AB-1: é</h1>\n")⟩, true⟩) ∧
    js_strlen "<h1>AB-1: é</h1>\n" = 17 ∧
    ("<h1>AB-1: é</h1>\n" : String).utf8ByteSize = 18 ∧
    (handle_issue_index "%%CONTAINER%%" "%%TABLE_BODY%%"
        (.ok [⟨"A-1", "é"⟩]) =
      ⟨some ⟨200,
        "<tr><td><a href=\"A-1\">A-1</a></td><td>é</td></tr>\n",
        some "text/html",
        some (js_strlen
          "<tr><td><a href=\"A-1\">A-1</a></td><td>é</td></tr>\n")⟩,
        true⟩) ∧
    js_strlen "<tr><td><a href=\"A-1\">A-1</a></td><td>é</td></tr>\n" ≠
      ("<tr><td><a href=\"A-1\">A-1</a></td><td>é</td></tr>\n" :
        String).utf8ByteSize :=
  ⟨by decide, by decide, by decide, by decide, by decide⟩

/-- C10: In the composed page the issue key, the summary, the resolution
name and description, the fix-version names and release dates, the
comment author display names, and the index table's summary cells are
embedded verbatim, with no escaping applied; only the description text
and the comment bodies pass through the renderer `format_markup` (whose
entity encoding is not the identity). -/
theorem compose_raw_embedding :
    (∀ (doc : IssueDoc) (f : Fields) (page : String),
      doc.fields = some f → format_issue doc = some page →
      ∃ rest, page = "<h1>" ++ doc.key ++ ": " ++ f.summary ++
        "</h1>\n" ++ rest) ∧
    (∀ (f : Fields) (r : Resolution) (iso : String),
      f.resolution = some r → js_toISO f.resolutiondate = some iso →
      resolution_section f =
        some ("<h2>Resolution</h2>\n" ++ "<p><b>" ++ r.name ++ ":</b> " ++
          r.description ++ "<br>\n" ++ "(Resolution Date: " ++ iso ++
          ")</p>\n")) ∧
    (∀ (f : Fields) (v : FixVersion) (vs : List FixVersion),
      f.fixVersions = some (v :: vs) →
      fix_versions_section f = "<h2>Fix Versions</h2>\n" ++
        str_concat ((v :: vs).map (fun fv => "<p><b>" ++ fv.name ++
          "</b> (Release Date: " ++ js_undef fv.releaseDate ++
          ")</p>\n"))) ∧
    (∀ (f : Fields) (d : String), f.description = some d → d ≠ "" →
      description_section f =
        "<h2>Description</h2>\n" ++ "<div>" ++ format_markup d ++
          "</div>\n") ∧
    (∀ (dark : Bool) (com : Comment) (out : String),
      render_comment dark com = some out →
      ∃ pre post, out = pre ++ ("Comment by " ++
        com.author.displayName ++ "<br>\n") ++ post) ∧
    (∀ i : IssueSummary, issue_row i =
      "<tr><td><a href=\"" ++ i.key ++ "\">" ++ i.key ++
        "</a></td><td>" ++ i.summary ++ "</td></tr>\n") ∧
    (∃ s : String, ent_encode s ≠ s) := by
  refine ⟨?_, ?_, ?_, ?_, ?_, fun i => rfl, ⟨"<", by decide⟩⟩
  · intro doc f page hdoc hpage
    cases doc with
    | mk k fl =>
      simp only at hdoc
      subst hdoc
      rw [format_issue] at hpage
      cases hrs : resolution_section f with
      | none => simp only [hrs] at hpage; exact absurd hpage (by simp)
      | some rs =>
        cases hcs : comments_section f with
        | none =>
          simp only [hrs, hcs] at hpage
          exact absurd hpage (by simp)
        | some cs =>
          simp only [hrs, hcs, Option.some.injEq] at hpage
          refine ⟨rs ++ (fix_versions_section f ++
            (description_section f ++ cs)), ?_⟩
          rw [← hpage]
          simp only [String.append_assoc]
  · intro f r iso hr hiso
    simp only [resolution_section, hr, hiso, Option.map]
  · intro f v vs hv
    simp [fix_versions_section, hv]
  · intro f d hd hnd
    have hde : (d == "") = false := by simp [hnd]
    simp [description_section, hd, hde]
  · intro dark com out h
    rw [render_comment] at h
    cases hcr : js_toISO (some com.created) with
    | none =>
      rw [hcr] at h
      simp at h
    | some ciso =>
      rw [hcr] at h
      cases hupd : (if js_truthy com.updated &&
          !(com.updated == some com.created) then
        (js_toISO com.updated).map
          (fun uiso => "Updated at " ++ uiso ++ "<br>\n")
      else some "") with
      | none =>
        rw [hupd] at h
        simp at h
      | some updLine =>
        rw [hupd] at h
        simp only [Option.some.injEq] at h
        refine ⟨"<div style=\"background-color: " ++
          ((if dark then "#DDDDDD" else "#EEEEEE") ++ (";\">\n" ++
            "<b>")),
          "Created at " ++ (ciso ++ ("<br>\n" ++ (updLine ++ ("</b>" ++
            (format_markup com.body ++ "</div><br>\n"))))), ?_⟩
        rw [← h]
        simp only [String.append_assoc]

theorem compose_raw_embedding_witness :
    (∃ rest, "<h1>AB-1: a<b</h1>\n" =
      "<h1>" ++ (⟨"AB-1", some ⟨"a<b", some ["public"], none, none, none, none, none⟩⟩ : IssueDoc).key ++ ": " ++
        (⟨"a<b", some ["public"], none, none, none, none, none⟩ : Fields).summary ++ "</h1>\n" ++ rest) ∧
    resolution_section ⟨"s", none, some ⟨"Fi<x", "de&sc"⟩, some "2014-01-07T20:14:28.000Z", none, none, none⟩ =
      some ("<h2>Resolution</h2>\n" ++ "<p><b>" ++ "Fi<x" ++ ":</b> " ++
        "de&sc" ++ "<br>\n" ++ "(Resolution Date: " ++ "2014-01-07T20:14:28.000Z" ++
        ")</p>\n") ∧
    fix_versions_section ⟨"s", none, none, none, some [⟨"v<1", none⟩], none, none⟩ = "<h2>Fix Versions</h2>\n" ++
      str_concat (([⟨"v<1", none⟩] : List FixVersion).map
        (fun fv => "<p><b>" ++ fv.name ++ "</b> (Release Date: " ++
          js_undef fv.releaseDate ++ ")</p>\n")) ∧
    description_section ⟨"s", none, none, none, none, some "d<e", none⟩ =
      "<h2>Description</h2>\n" ++ "<div>" ++ format_markup "d<e" ++
        "</div>\n" ∧
    (∃ pre post, "<div style=\"background-color: #EEEEEE;\">\n<b>Comment by A<l<br>\nCreated at 2014-01-07T20:14:28.000Z<br>\n</b>b&lt;c<br>\n</div><br>\n" =
      pre ++ ("Comment by " ++ "A<l" ++ "<br>\n") ++ post) ∧
    issue_row ⟨"A-1", "s<1"⟩ =
      "<tr><td><a href=\"" ++ "A-1" ++ "\">" ++ "A-1" ++
        "</a></td><td>" ++ "s<1" ++ "</td></tr>\n" ∧
    (∃ s : String, ent_encode s ≠ s) := by
  have h := compose_raw_embedding
  exact ⟨h.1 ⟨"AB-1", some ⟨"a<b", some ["public"], none, none, none, none, none⟩⟩ ⟨"a<b", some ["public"], none, none, none, none, none⟩ "<h1>AB-1: a<b</h1>\n" rfl
      (by decide),
    h.2.1 ⟨"s", none, some ⟨"Fi<x", "de&sc"⟩, some "2014-01-07T20:14:28.000Z", none, none, none⟩ ⟨"Fi<x", "de&sc"⟩ "2014-01-07T20:14:28.000Z" rfl (by decide),
    h.2.2.1 ⟨"s", none, none, none, some [⟨"v<1", none⟩], none, none⟩ ⟨"v<1", none⟩ [] rfl,
    h.2.2.2.1 ⟨"s", none, none, none, none, some "d<e", none⟩ "d<e" rfl (by decide),
    h.2.2.2.2.1 false ⟨⟨"A<l"⟩, "2014-01-07T20:14:28.000Z", none, "b<c"⟩ "<div style=\"background-color: #EEEEEE;\">\n<b>Comment by A<l<br>\nCreated at 2014-01-07T20:14:28.000Z<br>\n</b>b&lt;c<br>\n</div><br>\n" (by decide),
    h.2.2.2.2.2.1 ⟨"A-1", "s<1"⟩,
    h.2.2.2.2.2.2⟩

end Bugview
